import Mathlib

/-!
Shallow embedding of dnsbutler.py (class DNSServerManager and function main).

Python strings are modelled as Lean String, Python dicts as insertion-ordered
association lists (dinsert mirrors dict assignment: update in place for an
existing key, append for a new key).  External effects (HTTP request, shell
command, docker engine, filesystem) are modelled by an environment record
describing each call's outcome; the functions below replay the source's
control flow over that environment.
-/

namespace DNSButler

/-! ### Python string builtins -/

/-- Python str.ljust(w): pad on the right with spaces to width w (char count). -/
def pyLjust (s : String) (w : Nat) : String :=
  s ++ String.mk (List.replicate (w - s.length) ' ')

def splitChAux (sep : Char) : List Char → List Char → List (List Char)
  | [], acc => [acc.reverse]
  | c :: cs, acc =>
    if c = sep then acc.reverse :: splitChAux sep cs []
    else splitChAux sep cs (c :: acc)

/-- Python s.split(sep) for a single-character separator. -/
def splitCh (sep : Char) (s : String) : List String :=
  (splitChAux sep s.data []).map String.mk

/-- Python sep.join(l). -/
def joinSep (sep : String) : List String → String
  | [] => ""
  | [a] => a
  | a :: b :: t => a ++ sep ++ joinSep sep (b :: t)

/-- Python s.strip(). -/
def pyStrip (s : String) : String :=
  String.mk (((s.data.dropWhile Char.isWhitespace).reverse.dropWhile
    Char.isWhitespace).reverse)

/-- Python (c in s) for a character c. -/
def containsCh (s : String) (c : Char) : Bool :=
  s.data.any (fun x => x = c)

/-- Python s.split(sep, 1): split at the first occurrence of sep only.
Assumes sep occurs in s (the caller checks containsCh first). -/
def splitOnce (sep : Char) (s : String) : String × String :=
  let pre := s.data.takeWhile (fun x => x ≠ sep)
  (String.mk pre, String.mk (s.data.drop (pre.length + 1)))

/-! ### Python dict as insertion-ordered association list -/

/-- Python d[k] = v on an insertion-ordered dict. -/
def dinsert {β : Type} (m : List (String × β)) (k : String) (v : β) :
    List (String × β) :=
  if m.any (fun p => p.1 == k) then
    m.map (fun p => if p.1 == k then (p.1, v) else p)
  else m ++ [(k, v)]

/-- Python d.get(k) / d[k] lookup. -/
def dlookup {β : Type} (m : List (String × β)) (k : String) : Option β :=
  (m.find? (fun p => p.1 == k)).map (fun p => p.2)

/-- Keys of the dict, in insertion order. -/
def dkeys {β : Type} (m : List (String × β)) : List String :=
  m.map (fun p => p.1)

/-- The keys are pairwise distinct (an invariant of every Python dict). -/
def keysND {β : Type} (m : List (String × β)) : Prop := (dkeys m).Nodup

/-- The value of the last entry for key k in a pair list (last write). -/
def lastVal {β : Type} (l : List (String × β)) (k : String) : Option β :=
  (l.reverse.find? (fun p => p.1 == k)).map (fun p => p.2)

/-! ### main(): CLI record parsing (records[host.strip()] = ip.strip()) -/

/-- The loop in main that turns RECORD=IP arguments into the records dict;
raises ValueError (modelled as .error) on an entry with no equals sign. -/
def parseRecords : List String → List (String × String) →
    Except String (List (String × String))
  | [], acc => .ok acc
  | e :: t, acc =>
    if containsCh e '=' then
      let p := splitOnce '=' e
      parseRecords t (dinsert acc (pyStrip p.1) (pyStrip p.2))
    else .error ("Invalid record format: " ++ e)

/-- The records dict built from an already-split list of (host, ip) pairs. -/
def buildRecords (entries : List (String × String)) : List (String × String) :=
  entries.foldl (fun m p => dinsert m p.1 p.2) []

/-! ### start(): grouping records by apex domain -/

/-- Python l[-2:]. -/
def lastTwo {α : Type} (l : List α) : List α := l.drop (l.length - 2)

/-- ".".join(record.split(".")[-2:]) — the apex domain of a hostname. -/
def apexOf (h : String) : String := joinSep "." (lastTwo (splitCh '.' h))

/-- One iteration of the grouping loop:
dns_records.setdefault(domain, dict()).update with record = ip. -/
def groupStep (gs : List (String × List (String × String)))
    (p : String × String) : List (String × List (String × String)) :=
  let d := apexOf p.1
  if gs.any (fun q => q.1 == d) then
    gs.map (fun q => if q.1 == d then (q.1, dinsert q.2 p.1 p.2) else q)
  else gs ++ [(d, dinsert [] p.1 p.2)]

/-- The grouping loop in start over records.items(). -/
def groupRecords (records : List (String × String)) :
    List (String × List (String × String)) :=
  records.foldl groupStep []

/-! ### Zone rendering -/

def dockerImage : String := "ubuntu/bind9:latest"

/-- One generated A-record line: record.ljust(30) followed by IN A and the ip. -/
def recordLine (p : String × String) : String :=
  pyLjust p.1 30 ++ " IN A " ++ p.2

/-- _generate_zone_file: the zone file text for one apex domain. -/
def genZoneFile (domain : String) (recs : List (String × String))
    (serial : Nat) (publicIp : String) : String :=
  "; Zone file for " ++ domain ++
  "\n$TTL 86400\n@ IN SOA ns." ++ domain ++ ". admin." ++ domain ++
  ". (\n    " ++ Nat.repr serial ++
  "\n    3600\n    900\n    604800\n    86400 )\n\n@       IN NS  ns." ++
  domain ++ ".\nns      IN A   " ++ publicIp ++ "\n\n" ++
  joinSep "\n" (recs.map recordLine) ++ "\n"

/-- One zone stanza of named.conf for an apex domain. -/
def zoneStanza (d : String) : String :=
  "zone \"" ++ d ++ "\" \x7b type master; file \"/etc/bind/db." ++ d ++
  "\"; \x7d;"

/-- _generate_zone_entries: the zone stanzas, newline-joined. -/
def genZoneEntries (domains : List String) : String :=
  joinSep "\n" (domains.map zoneStanza)

/-- The named.conf text built in _generate_zone_files. -/
def genNamedConf (domains : List String) : String :=
  "\noptions \x7b\n    directory \"/etc/bind\";\n    listen-on port 53 \x7b any; \x7d;\n    allow-query \x7b any; \x7d;\n    recursion no;\n\x7d;\n\n" ++
  genZoneEntries domains ++ "\n            "

/-! ### _get_serial: int(utcnow().strftime("%Y%m%d%H")) -/

/-- The w zero-padded decimal digits of n (most significant first), as
strftime renders a field of width w. -/
def padDigits : Nat → Nat → List Nat
  | 0, _ => []
  | w + 1, n => n / 10 ^ w % 10 :: padDigits w n

/-- Python int() applied to a digit string. -/
def intOfDigits (ds : List Nat) : Nat :=
  ds.foldl (fun a d => a * 10 + d) 0

/-- The digit string strftime("%Y%m%d%H") produces for a UTC time. -/
def serialDigits (y mo d h : Nat) : List Nat :=
  padDigits 4 y ++ padDigits 2 mo ++ padDigits 2 d ++ padDigits 2 h

/-- _get_serial for the UTC time (y, mo, d, h). -/
def getSerial (y mo d h : Nat) : Nat := intOfDigits (serialDigits y mo d h)

/-! ### _get_public_ip -/

/-- _get_public_ip.  httpResp models requests.get: none is a transport-level
RequestException, some (status, body) is any HTTP response — .text returns
the body whatever the status code.  shellOut models the stripped stdout of
the fallback shell chain, none meaning the command failed. -/
def getPublicIp (httpResp : Option (Nat × String)) (shellOut : Option String) :
    Except String String :=
  match httpResp with
  | some r => .ok r.2
  | none =>
    match shellOut with
    | some out => .ok out
    | none => .error "Failed to determine public IP address"

/-! ### _setup_docker -/

/-- _setup_docker: docker ps, then a one-shot install on failure. -/
def setupDocker (psOk installOk : Bool) : Except String Unit :=
  if psOk then .ok ()
  else if installOk then .ok ()
  else .error "Docker installation failed"

/-! ### _pull_bind_image -/

/-- Outcome of one images.pull call. -/
inductive PullOutcome : Type
  | success : PullOutcome
  | notFound : PullOutcome
  | apiError : String → PullOutcome

/-- The retry loop body over the remaining attempt indices of range(3);
last is max_retries - 1.  Returns (pull calls made, retry notices printed,
result). -/
def pullGo (img : String) (pull : Nat → PullOutcome) (last : Nat) :
    List Nat → Nat × Nat × Except String Unit
  | [] => (0, 0, .ok ())
  | a :: rest =>
    match pull a with
    | .success => (1, 0, .ok ())
    | .notFound => (1, 0, .error ("Image " ++ img ++ " not found"))
    | .apiError msg =>
      if a = last then (1, 0, .error ("Failed to pull image: " ++ msg))
      else
        let r := pullGo img pull last rest
        (r.1 + 1, r.2.1 + 1, r.2.2)

/-- _pull_bind_image: for attempt in range(3). -/
def pullBindImage (img : String) (pull : Nat → PullOutcome) :
    Nat × Nat × Except String Unit :=
  pullGo img pull 2 [0, 1, 2]

/-! ### _generate_zone_files (filesystem effects) -/

/-- Outcome of one filesystem call (mkdir or write_text). -/
inductive FsOutcome : Type
  | ok : FsOutcome
  | permDenied : String → FsOutcome
  | ioError : String → FsOutcome

/-- Filesystem behaviour: the mkdir outcome and each file write's outcome
(keyed by file name under the volume path). -/
structure FsEnv : Type where
  mkdirRes : FsOutcome
  writeRes : String → FsOutcome

/-- A filesystem operation performed by _generate_zone_files. -/
inductive FsOp : Type
  | mkdirP : FsOp
  | write : String → FsOp
deriving DecidableEq

/-- The kind of filesystem failure that interrupted the write sequence. -/
inductive FsFailure : Type
  | perm : String → FsFailure
  | io : String → FsFailure

/-- Sequentially attempt the writes; stop at the first failure.  Returns the
operations attempted, the files actually on disk, and the failure if any. -/
def runWrites (env : FsEnv) :
    List (String × String) →
    List FsOp × List (String × String) × Option FsFailure
  | [] => ([], [], none)
  | (name, content) :: rest =>
    match env.writeRes name with
    | .ok =>
      let r := runWrites env rest
      (.write name :: r.1, (name, content) :: r.2.1, r.2.2)
    | .permDenied m => ([.write name], [], some (.perm m))
    | .ioError m => ([.write name], [], some (.io m))

/-- The list of files _generate_zone_files writes, in order: named.conf
first, then one db.<apex> per apex domain in insertion order. -/
def zoneFilesOf (model : List (String × List (String × String)))
    (serial : Nat) (publicIp : String) : List (String × String) :=
  ("named.conf", genNamedConf (dkeys model)) ::
    model.map (fun p => ("db." ++ p.1, genZoneFile p.1 p.2 serial publicIp))

/-- Map a filesystem failure to the DNSConfigError message raised. -/
def fsErrMsg : FsFailure → String
  | .perm m => "Permission denied: " ++ m
  | .io m => "File system error: " ++ m

/-- _generate_zone_files: mkdir(parents, exist_ok), write named.conf, write
each zone file; PermissionError and OSError become DNSConfigError. -/
def generateZoneFiles (env : FsEnv)
    (model : List (String × List (String × String)))
    (serial : Nat) (publicIp : String) :
    List FsOp × List (String × String) × Except String Unit :=
  match env.mkdirRes with
  | .permDenied m => ([.mkdirP], [], .error ("Permission denied: " ++ m))
  | .ioError m => ([.mkdirP], [], .error ("File system error: " ++ m))
  | .ok =>
    let r := runWrites env (zoneFilesOf model serial publicIp)
    (.mkdirP :: r.1, r.2.1,
      match r.2.2 with
      | none => .ok ()
      | some f => .error (fsErrMsg f))

/-! ### _start_container -/

/-- A docker container as far as the code observes it. -/
structure DContainer : Type where
  name : String
  running : Bool
  cid : Nat
deriving DecidableEq

/-- _start_container: get the container named dns-server, force-remove it if
found (NotFound is passed over), then run the new container with that name. -/
def startContainer (st : List DContainer) (runOk : Bool) (freshId : Nat) :
    Except String (List DContainer) :=
  let st1 :=
    match st.find? (fun c => c.name == "dns-server") with
    | some old => st.filter (fun c => c.cid != old.cid)
    | none => st
  if runOk then .ok (st1 ++ [⟨"dns-server", true, freshId⟩])
  else .error "Docker API error"

/-! ### start(): the controller sequence -/

/-- The stages of start, in the order their calls appear. -/
inductive Event : Type
  | resolveIP : Event
  | dockerCheck : Event
  | imagePull : Event
  | buildModel : Event
  | writeFiles : Event
  | launchContainer : Event
deriving DecidableEq

/-- The full successful stage order of start. -/
def fullTrace : List Event :=
  [.resolveIP, .dockerCheck, .imagePull, .buildModel, .writeFiles,
   .launchContainer]

/-- The two exception kinds start catches (DNSConfigError, DockerError). -/
inductive StartErr : Type
  | config : String → StartErr
  | docker : String → StartErr

/-- Environment describing the outcome of every external call start makes. -/
structure Env : Type where
  http : Option (Nat × String)
  shell : Option String
  psOk : Bool
  installOk : Bool
  pull : Nat → PullOutcome
  fs : FsEnv
  containers : List DContainer
  runOk : Bool
  freshId : Nat
  serial : Nat

/-- start(records): the stage sequence, the files written to disk, and the
result (returned public IP, or the first stage's error). -/
def startRun (env : Env) (records : List (String × String)) :
    List Event × List (String × String) × Except StartErr String :=
  match getPublicIp env.http env.shell with
  | .error m => ([.resolveIP], [], .error (.config m))
  | .ok ip =>
    match setupDocker env.psOk env.installOk with
    | .error m => ([.resolveIP, .dockerCheck], [], .error (.docker m))
    | .ok _ =>
      match (pullBindImage dockerImage env.pull).2.2 with
      | .error m =>
        ([.resolveIP, .dockerCheck, .imagePull], [], .error (.docker m))
      | .ok _ =>
        match (generateZoneFiles env.fs (groupRecords records) env.serial
            ip).2.2 with
        | .error m =>
          ([.resolveIP, .dockerCheck, .imagePull, .buildModel, .writeFiles],
            (generateZoneFiles env.fs (groupRecords records) env.serial
              ip).2.1,
            .error (.config m))
        | .ok _ =>
          match startContainer env.containers env.runOk env.freshId with
          | .error m =>
            (fullTrace,
              (generateZoneFiles env.fs (groupRecords records) env.serial
                ip).2.1,
              .error (.docker m))
          | .ok _ =>
            (fullTrace,
              (generateZoneFiles env.fs (groupRecords records) env.serial
                ip).2.1,
              .ok ip)

/-! ### main(): exception handlers and exit codes -/

/-- How the call into manager.start behaves, seen from main. -/
inductive StartBehavior : Type
  | runs : Env → StartBehavior
  | interrupted : StartBehavior
  | unexpectedExc : StartBehavior

/-- main(): parse the arguments, run start, map every outcome to the process
exit code and the distinguishing message prefix printed. -/
def mainRun (entries : List String) (b : StartBehavior) : Nat × String :=
  match parseRecords entries [] with
  | .error _ => (2, "❌ Invalid input: ")
  | .ok recs =>
    match b with
    | .interrupted => (130, "Operation cancelled by user")
    | .unexpectedExc => (1, "❌ Unexpected error: ")
    | .runs env =>
      match (startRun env recs).2.2 with
      | .ok _ => (0, "✅ DNS Server Successfully Configured!")
      | .error _ => (1, "❌ Error: ")

/-! ### Substring containment -/

/-- pat occurs contiguously inside s. -/
def containsSub (s pat : String) : Prop :=
  ∃ pre post : String, s = pre ++ pat ++ post

/-! ### Derived observations used to state the claims -/

/-- Look up hostname h inside the record mapping of apex domain a. -/
def glookup (gs : List (String × List (String × String))) (a h : String) :
    Option String :=
  match dlookup gs a with
  | some g => dlookup g h
  | none => none

/-- Event a begins strictly before event b in a trace: after some number of
completed steps, a has already begun while b has not. -/
def beganBefore (tr : List Event) (a b : Event) : Prop :=
  ∃ n, a ∈ tr.take n ∧ b ∉ tr.take n

/-- A benign environment in which every external call succeeds. -/
def cEnv : Env where
  http := some (200, "203.0.113.9")
  shell := none
  psOk := true
  installOk := true
  pull := fun _ => .success
  fs := { mkdirRes := .ok, writeRes := fun _ => .ok }
  containers := []
  runOk := true
  freshId := 7
  serial := 2024101209

/-- A filesystem in which writing db.example.com is denied and every other
operation succeeds. -/
def wEnv : FsEnv where
  mkdirRes := .ok
  writeRes := fun f => if f = "db.example.com" then .permDenied "EACCES" else .ok

/-! ## Helper lemmas -/

theorem strAppend_assoc (a b c : String) : a ++ b ++ c = a ++ (b ++ c) := by
  apply String.ext
  simp [String.data_append]

theorem containsSub_mid (a pat b : String) : containsSub (a ++ pat ++ b) pat :=
  ⟨a, b, rfl⟩

theorem containsSub_appL (a : String) {s pat : String}
    (h : containsSub s pat) : containsSub (a ++ s) pat := by
  obtain ⟨pre, post, rfl⟩ := h
  exact ⟨a ++ pre, post, by apply String.ext; simp [String.data_append]⟩

theorem containsSub_appR (b : String) {s pat : String}
    (h : containsSub s pat) : containsSub (s ++ b) pat := by
  obtain ⟨pre, post, rfl⟩ := h
  exact ⟨pre, post ++ b, by apply String.ext; simp [String.data_append]⟩

theorem containsSub_joinSep {α : Type} (sep : String) (f : α → String) :
    ∀ (l : List α), ∀ p ∈ l, containsSub (joinSep sep (l.map f)) (f p) := by
  intro l
  induction l with
  | nil => intro p hp; cases hp
  | cons a t ih =>
    intro p hp
    cases t with
    | nil =>
      rcases List.mem_cons.mp hp with rfl | h2
      · exact ⟨"", "", by apply String.ext; simp [joinSep, String.data_append]⟩
      · cases h2
    | cons b t2 =>
      rcases List.mem_cons.mp hp with rfl | h2
      · refine ⟨"", sep ++ joinSep sep ((b :: t2).map f), ?_⟩
        apply String.ext
        simp [joinSep, String.data_append]
      · obtain ⟨pre, post, he⟩ := ih p h2
        rw [List.map_cons] at he
        refine ⟨f a ++ sep ++ pre, post, ?_⟩
        apply String.ext
        simp [joinSep, String.data_append, he]

theorem optMap_or {α β' : Type} (x y : Option α) (f : α → β') :
    (x.or y).map f = (x.map f).or (y.map f) := by
  cases x <;> simp

theorem dlookup_nil {β : Type} (k : String) :
    dlookup ([] : List (String × β)) k = none := rfl

theorem dlookup_cons {β : Type} (p : String × β) (t : List (String × β))
    (k : String) :
    dlookup (p :: t) k = if p.1 = k then some p.2 else dlookup t k := by
  by_cases h : p.1 = k <;> simp [dlookup, List.find?_cons, h]

theorem dlookup_append {β : Type} (m1 m2 : List (String × β)) (k : String) :
    dlookup (m1 ++ m2) k = (dlookup m1 k).or (dlookup m2 k) := by
  simp [dlookup, List.find?_append, optMap_or]

theorem dlookup_isSome_any {β : Type} (m : List (String × β)) (k : String) :
    (dlookup m k).isSome = m.any (fun p => p.1 == k) := by
  induction m with
  | nil => rfl
  | cons p t ih =>
    by_cases h : p.1 = k <;> simp [dlookup_cons, h, ih]

theorem dlookup_of_any_false {β : Type} {m : List (String × β)} {k : String}
    (h : m.any (fun p => p.1 == k) = false) : dlookup m k = none := by
  have hs := dlookup_isSome_any m k
  rw [h] at hs
  cases he : dlookup m k with
  | none => rfl
  | some v => rw [he] at hs; simp at hs

theorem dlookup_map_upd {β : Type} (f : β → β) (d : String)
    (m : List (String × β)) (a : String) :
    dlookup (m.map (fun p => if p.1 == d then (p.1, f p.2) else p)) a =
      if a = d then (dlookup m a).map f else dlookup m a := by
  induction m with
  | nil => by_cases h : a = d <;> simp [dlookup, h]
  | cons p t ih =>
    obtain ⟨p1, p2⟩ := p
    simp only [List.map_cons, beq_iff_eq] at ih ⊢
    by_cases hpd : p1 = d
    · subst hpd
      by_cases hpa : p1 = a
      · subst hpa
        simp [dlookup_cons, ih]
      · have hap : ¬ a = p1 := fun hh => hpa hh.symm
        simp [dlookup_cons, hpa, hap, ih]
    · by_cases hpa : p1 = a
      · subst hpa
        simp [dlookup_cons, hpd]
      · simp [dlookup_cons, hpd, hpa, ih]

theorem dlookup_dinsert_self {β : Type} (m : List (String × β)) (k : String)
    (v : β) : dlookup (dinsert m k v) k = some v := by
  unfold dinsert
  by_cases h : m.any (fun p => p.1 == k) = true
  · rw [if_pos h]
    have hm := dlookup_map_upd (fun _ => v) k m k
    rw [if_pos rfl] at hm
    rw [hm]
    have hs := dlookup_isSome_any m k
    rw [h] at hs
    cases he : dlookup m k with
    | none => rw [he] at hs; simp at hs
    | some w => simp
  · rw [if_neg h]
    rw [dlookup_append, dlookup_of_any_false (Bool.eq_false_iff.mpr h)]
    simp [dlookup_cons]

theorem dlookup_dinsert_other {β : Type} (m : List (String × β))
    {k a : String} (v : β) (h : a ≠ k) :
    dlookup (dinsert m k v) a = dlookup m a := by
  unfold dinsert
  by_cases hm : m.any (fun p => p.1 == k) = true
  · rw [if_pos hm]
    have h2 := dlookup_map_upd (fun _ => v) k m a
    rw [if_neg h] at h2
    exact h2
  · rw [if_neg hm, dlookup_append]
    have hka : ¬ k = a := fun hh => h hh.symm
    simp [dlookup_cons, hka, dlookup_nil]

theorem dkeys_map_keep {β : Type} (g : String × β → String × β)
    (hg : ∀ p, (g p).1 = p.1) (m : List (String × β)) :
    dkeys (m.map g) = dkeys m := by
  induction m with
  | nil => rfl
  | cons p t ih =>
    simp only [List.map_cons, dkeys] at ih ⊢
    rw [hg p, ih]

theorem notMem_dkeys_of_any_false {β : Type} {m : List (String × β)}
    {k : String} (h : m.any (fun p => p.1 == k) = false) : k ∉ dkeys m := by
  intro hk
  simp only [dkeys, List.mem_map] at hk
  obtain ⟨p, hp, he⟩ := hk
  rw [List.any_eq_false] at h
  exact absurd (beq_iff_eq.mpr he) (by simpa using h p hp)

theorem keysND_dinsert {β : Type} {m : List (String × β)} (k : String) (v : β)
    (h : keysND m) : keysND (dinsert m k v) := by
  unfold dinsert
  by_cases hm : m.any (fun p => p.1 == k) = true
  · rw [if_pos hm]
    unfold keysND
    rw [dkeys_map_keep (fun p => if p.1 == k then (p.1, v) else p)
      (fun p => by by_cases hh : p.1 = k <;> simp [hh])]
    exact h
  · rw [if_neg hm]
    unfold keysND at h ⊢
    have hk : k ∉ dkeys m :=
      notMem_dkeys_of_any_false (Bool.eq_false_iff.mpr hm)
    have : dkeys (m ++ [(k, v)]) = dkeys m ++ [k] := by simp [dkeys]
    rw [this, List.nodup_append]
    refine ⟨h, List.nodup_singleton k, ?_⟩
    intro a ha hb
    rw [List.mem_singleton] at hb
    subst hb
    exact hk ha

theorem dlookup_eq_some_of_mem {β : Type} {m : List (String × β)}
    {k : String} {v : β} (hnd : keysND m) (hm : (k, v) ∈ m) :
    dlookup m k = some v := by
  induction m with
  | nil => cases hm
  | cons p t ih =>
    unfold keysND dkeys at hnd
    rw [List.map_cons, List.nodup_cons] at hnd
    rcases List.mem_cons.mp hm with rfl | h2
    · simp [dlookup_cons]
    · have hpk : ¬ p.1 = k := by
        intro he
        exact hnd.1 (he ▸ (List.mem_map.mpr ⟨(k, v), h2, rfl⟩))
      rw [dlookup_cons, if_neg hpk]
      exact ih hnd.2 h2

theorem mem_of_dlookup_eq_some {β : Type} {m : List (String × β)}
    {k : String} {v : β} (h : dlookup m k = some v) : (k, v) ∈ m := by
  unfold dlookup at h
  cases hf : m.find? (fun p => p.1 == k) with
  | none => rw [hf] at h; cases h
  | some p =>
    rw [hf] at h
    have hp := List.find?_some hf
    have hm := List.mem_of_find?_eq_some hf
    obtain ⟨a, b⟩ := p
    have h' : some b = some v := h
    have h2 : b = v := Option.some.inj h'
    have h1 : a = k := beq_iff_eq.mp hp
    subst h1
    subst h2
    exact hm

theorem lastVal_nil {β : Type} (k : String) :
    lastVal ([] : List (String × β)) k = none := rfl

theorem lastVal_cons {β : Type} (p : String × β) (t : List (String × β))
    (k : String) :
    lastVal (p :: t) k =
      (lastVal t k).or (if p.1 = k then some p.2 else none) := by
  unfold lastVal
  rw [List.reverse_cons, List.find?_append, optMap_or]
  congr 1
  by_cases h : p.1 = k <;> simp [List.find?_cons, h]

theorem foldl_dinsert_lookup (entries : List (String × String)) :
    ∀ (m : List (String × String)) (k : String),
      dlookup (entries.foldl (fun m p => dinsert m p.1 p.2) m) k =
        (lastVal entries k).or (dlookup m k) := by
  induction entries with
  | nil => intro m k; simp [lastVal_nil]
  | cons p t ih =>
    intro m k
    rw [List.foldl_cons, ih, lastVal_cons, Option.or_assoc]
    congr 1
    by_cases h : p.1 = k
    · rw [if_pos h]
      subst h
      simp [dlookup_dinsert_self m p.1 p.2]
    · rw [if_neg h, Option.none_or]
      exact dlookup_dinsert_other m p.2 (fun hh => h hh.symm)

theorem buildRecords_lookup (entries : List (String × String)) (k : String) :
    dlookup (buildRecords entries) k = lastVal entries k := by
  unfold buildRecords
  rw [foldl_dinsert_lookup, dlookup_nil, Option.or_none]

theorem keysND_buildRecords (entries : List (String × String)) :
    keysND (buildRecords entries) := by
  unfold buildRecords
  have hgen : ∀ (l : List (String × String)) (m : List (String × String)),
      keysND m → keysND (l.foldl (fun m p => dinsert m p.1 p.2) m) := by
    intro l
    induction l with
    | nil => intro m hm; exact hm
    | cons p t ih =>
      intro m hm
      rw [List.foldl_cons]
      exact ih _ (keysND_dinsert p.1 p.2 hm)
  exact hgen entries [] (by simp [keysND, dkeys])

theorem lastVal_of_notMem {β : Type} {m : List (String × β)} {k : String}
    (h : k ∉ dkeys m) : lastVal m k = none := by
  induction m with
  | nil => rfl
  | cons p t ih =>
    rw [lastVal_cons]
    have h1 : k ∉ dkeys t := fun hh => h (by simp [dkeys] at hh ⊢; right; exact hh)
    have h2 : ¬ p.1 = k := fun hh => h (by simp [dkeys]; left; exact hh.symm)
    rw [ih h1, if_neg h2]
    rfl

theorem lastVal_of_mem_nodup {β : Type} {m : List (String × β)} {k : String}
    {v : β} (hnd : keysND m) (hm : (k, v) ∈ m) : lastVal m k = some v := by
  induction m with
  | nil => cases hm
  | cons p t ih =>
    unfold keysND dkeys at hnd
    rw [List.map_cons, List.nodup_cons] at hnd
    rw [lastVal_cons]
    rcases List.mem_cons.mp hm with rfl | h2
    · have hk : k ∉ dkeys t := by
        intro hh
        exact hnd.1 hh
      rw [lastVal_of_notMem hk, if_pos rfl, Option.none_or]
    · rw [ih hnd.2 h2]
      rfl

theorem glookup_groupStep (gs : List (String × List (String × String)))
    (p : String × String) (h : String) :
    glookup (groupStep gs p) (apexOf h) h =
      if p.1 = h then some p.2 else glookup gs (apexOf h) h := by
  unfold groupStep glookup
  by_cases hpres : gs.any (fun q => q.1 == apexOf p.1) = true
  · rw [if_pos hpres]
    rw [dlookup_map_upd (fun g => dinsert g p.1 p.2) (apexOf p.1) gs (apexOf h)]
    by_cases hd : apexOf h = apexOf p.1
    · rw [if_pos hd]
      cases hg : dlookup gs (apexOf h) with
      | none =>
        have hs := dlookup_isSome_any gs (apexOf h)
        rw [hg, hd, hpres] at hs
        cases hs
      | some g =>
        by_cases hph : p.1 = h
        · rw [if_pos hph]
          show dlookup (dinsert g p.1 p.2) h = some p.2
          rw [hph]
          exact dlookup_dinsert_self g h p.2
        · rw [if_neg hph]
          show dlookup (dinsert g p.1 p.2) h = dlookup g h
          exact dlookup_dinsert_other g p.2 (fun hh => hph hh.symm)
    · rw [if_neg hd]
      have hph : ¬ p.1 = h := by
        intro he
        exact hd (by rw [he])
      rw [if_neg hph]
  · rw [if_neg hpres]
    rw [dlookup_append]
    by_cases hd : apexOf h = apexOf p.1
    · have hnone : dlookup gs (apexOf h) = none := by
        rw [hd]
        exact dlookup_of_any_false (Bool.eq_false_iff.mpr hpres)
      rw [hnone, Option.none_or]
      rw [dlookup_cons, if_pos hd.symm]
      simp only [Option.none_or]
      by_cases hph : p.1 = h
      · rw [if_pos hph, hph, dlookup_dinsert_self]
      · rw [if_neg hph,
          dlookup_dinsert_other [] p.2 (fun hh => hph hh.symm),
          dlookup_nil]
    · have hph : ¬ p.1 = h := by
        intro he
        exact hd (by rw [he])
      rw [if_neg hph, dlookup_cons]
      have : ¬ apexOf p.1 = apexOf h := fun hh => hd hh.symm
      rw [if_neg this, dlookup_nil, Option.or_none]

theorem glookup_groupFold (rs : List (String × String)) :
    ∀ (gs : List (String × List (String × String))) (h : String),
      glookup (rs.foldl groupStep gs) (apexOf h) h =
        (lastVal rs h).or (glookup gs (apexOf h) h) := by
  induction rs with
  | nil => intro gs h; simp [lastVal_nil]
  | cons p t ih =>
    intro gs h
    rw [List.foldl_cons, ih, lastVal_cons, Option.or_assoc]
    congr 1
    rw [glookup_groupStep]
    by_cases hph : p.1 = h
    · rw [if_pos hph, if_pos hph]
      rfl
    · rw [if_neg hph, if_neg hph, Option.none_or]

theorem groupRecords_glookup (rs : List (String × String)) (h : String) :
    glookup (groupRecords rs) (apexOf h) h = lastVal rs h := by
  unfold groupRecords
  rw [glookup_groupFold]
  have : glookup [] (apexOf h) h = none := rfl
  rw [this, Option.or_none]

theorem groupStep_inner_nodup
    {gs : List (String × List (String × String))} (p : String × String)
    (hg : ∀ q ∈ gs, keysND q.2) : ∀ q ∈ groupStep gs p, keysND q.2 := by
  unfold groupStep
  by_cases hpres : gs.any (fun q => q.1 == apexOf p.1) = true
  · rw [if_pos hpres]
    intro q hq
    rw [List.mem_map] at hq
    obtain ⟨q0, hq0, he⟩ := hq
    by_cases hc : q0.1 = apexOf p.1
    · rw [if_pos (beq_iff_eq.mpr hc)] at he
      rw [← he]
      exact keysND_dinsert p.1 p.2 (hg q0 hq0)
    · have : (q0.1 == apexOf p.1) = false := by
        cases hbe : q0.1 == apexOf p.1 with
        | false => rfl
        | true => exact absurd (beq_iff_eq.mp hbe) hc
      rw [this] at he
      simp only [Bool.false_eq_true, if_false] at he
      rw [← he]
      exact hg q0 hq0
  · rw [if_neg hpres]
    intro q hq
    rcases List.mem_append.mp hq with h1 | h2
    · exact hg q h1
    · rw [List.mem_singleton] at h2
      subst h2
      exact keysND_dinsert p.1 p.2
        (show keysND ([] : List (String × String)) from List.nodup_nil)

theorem groupRecords_inner_nodup (rs : List (String × String)) :
    ∀ q ∈ groupRecords rs, keysND q.2 := by
  unfold groupRecords
  have hgen : ∀ (l : List (String × String))
      (gs : List (String × List (String × String))),
      (∀ q ∈ gs, keysND q.2) → ∀ q ∈ l.foldl groupStep gs, keysND q.2 := by
    intro l
    induction l with
    | nil => intro gs hg; exact hg
    | cons p t ih =>
      intro gs hg
      rw [List.foldl_cons]
      exact ih _ (groupStep_inner_nodup p hg)
  exact hgen rs [] (by intro q hq; cases hq)

theorem countP_key_eq_one {β : Type} {g : List (String × β)} {k : String}
    {v : β} (hnd : keysND g) (hm : (k, v) ∈ g) :
    g.countP (fun q => q.1 == k) = 1 := by
  induction g with
  | nil => cases hm
  | cons p t ih =>
    unfold keysND dkeys at hnd
    rw [List.map_cons, List.nodup_cons] at hnd
    rcases List.mem_cons.mp hm with rfl | h2
    · rw [List.countP_cons_of_pos _ _ (by simp)]
      have : t.countP (fun q => q.1 == k) = 0 := by
        rw [List.countP_eq_zero]
        intro q hq hqk
        exact hnd.1 (List.mem_map.mpr ⟨q, hq, (beq_iff_eq.mp hqk)⟩)
      rw [this]
    · have hpk : ¬ p.1 = k := by
        intro he
        exact hnd.1 (he ▸ List.mem_map.mpr ⟨(k, v), h2, rfl⟩)
      rw [List.countP_cons_of_neg _ _ (by simp [hpk])]
      exact ih hnd.2 h2

theorem foldl_padDigits (w : Nat) :
    ∀ (a n : Nat),
      (padDigits w n).foldl (fun x dg => x * 10 + dg) a =
        a * 10 ^ w + n % 10 ^ w := by
  induction w with
  | zero => intro a n; simp [padDigits, Nat.mod_one]
  | succ w ih =>
    intro a n
    rw [padDigits, List.foldl_cons, ih, Nat.mod_pow_succ]
    ring

theorem intOfDigits_serialDigits (y mo d h : Nat) (hy : y < 10000)
    (hmo : mo < 100) (hd : d < 100) (hh : h < 100) :
    getSerial y mo d h = ((y * 100 + mo) * 100 + d) * 100 + h := by
  unfold getSerial intOfDigits serialDigits
  rw [List.foldl_append, List.foldl_append, List.foldl_append,
    foldl_padDigits, foldl_padDigits, foldl_padDigits, foldl_padDigits]
  have p4 : (10 : Nat) ^ 4 = 10000 := by norm_num
  have p2 : (10 : Nat) ^ 2 = 100 := by norm_num
  rw [p4, p2]
  rw [Nat.mod_eq_of_lt hy, Nat.mod_eq_of_lt hmo, Nat.mod_eq_of_lt hd,
    Nat.mod_eq_of_lt hh]
  ring

theorem runWrites_trace_prefix (env : FsEnv) :
    ∀ (fs : List (String × String)),
      (runWrites env fs).1 <+: fs.map (fun f => FsOp.write f.1) := by
  intro fs
  induction fs with
  | nil => exact List.prefix_refl _
  | cons f t ih =>
    obtain ⟨name, content⟩ := f
    cases hw : env.writeRes name with
    | ok =>
      simp only [runWrites, hw]
      rw [List.map_cons]
      exact List.cons_prefix_cons.mpr ⟨rfl, ih⟩
    | permDenied m =>
      simp only [runWrites, hw]
      rw [List.map_cons]
      exact List.cons_prefix_cons.mpr ⟨rfl, List.nil_prefix⟩
    | ioError m =>
      simp only [runWrites, hw]
      rw [List.map_cons]
      exact List.cons_prefix_cons.mpr ⟨rfl, List.nil_prefix⟩

theorem runWrites_all_ok (env : FsEnv) :
    ∀ (fs : List (String × String)),
      (∀ f ∈ fs, env.writeRes f.1 = .ok) →
      runWrites env fs = (fs.map (fun f => FsOp.write f.1), fs, none) := by
  intro fs
  induction fs with
  | nil => intro _; rfl
  | cons f t ih =>
    intro hall
    obtain ⟨name, content⟩ := f
    have h1 : env.writeRes name = .ok := hall (name, content) (by simp)
    have h2 := ih (fun g hg => hall g (List.mem_cons_of_mem _ hg))
    simp only [runWrites, h1, h2, List.map_cons]

theorem runWrites_ok_prefix_split (env : FsEnv) :
    ∀ (fs1 fs2 : List (String × String)),
      (∀ f ∈ fs1, env.writeRes f.1 = .ok) →
      runWrites env (fs1 ++ fs2) =
        (fs1.map (fun f => FsOp.write f.1) ++ (runWrites env fs2).1,
         fs1 ++ (runWrites env fs2).2.1,
         (runWrites env fs2).2.2) := by
  intro fs1
  induction fs1 with
  | nil => intro fs2 _; simp
  | cons f t ih =>
    intro fs2 hall
    obtain ⟨name, content⟩ := f
    have h1 : env.writeRes name = .ok := hall (name, content) (by simp)
    have h2 := ih fs2 (fun g hg => hall g (List.mem_cons_of_mem _ hg))
    simp [runWrites, h1, h2]

theorem runWrites_none_disk (env : FsEnv) :
    ∀ (fs : List (String × String)),
      (runWrites env fs).2.2 = none → (runWrites env fs).2.1 = fs := by
  intro fs
  induction fs with
  | nil => intro _; rfl
  | cons f t ih =>
    intro hn
    obtain ⟨name, content⟩ := f
    cases hw : env.writeRes name with
    | ok =>
      simp only [runWrites, hw] at hn ⊢
      rw [ih hn]
    | permDenied m =>
      simp only [runWrites, hw] at hn
      cases hn
    | ioError m =>
      simp only [runWrites, hw] at hn
      cases hn

theorem generateZoneFiles_ok_disk (env : FsEnv)
    (model : List (String × List (String × String))) (serial : Nat)
    (publicIp : String)
    (h : (generateZoneFiles env model serial publicIp).2.2 = .ok ()) :
    (generateZoneFiles env model serial publicIp).2.1 =
      zoneFilesOf model serial publicIp := by
  unfold generateZoneFiles at h ⊢
  cases hm : env.mkdirRes with
  | permDenied m =>
    rw [hm] at h
    simp at h
  | ioError m =>
    rw [hm] at h
    simp at h
  | ok =>
    rcases hrw : runWrites env (zoneFilesOf model serial publicIp) with
      ⟨tr, disk, fail⟩
    rw [hm] at h
    cases fail with
    | none =>
      show disk = zoneFilesOf model serial publicIp
      have h2 := runWrites_none_disk env (zoneFilesOf model serial publicIp)
        (by rw [hrw])
      rw [hrw] at h2
      exact h2
    | some f =>
      rw [hrw] at h
      simp at h

theorem parseRecords_error_iff (entries : List String) :
    ∀ acc, (∃ m, parseRecords entries acc = .error m) ↔
      ∃ e ∈ entries, containsCh e '=' = false := by
  induction entries with
  | nil =>
    intro acc
    constructor
    · rintro ⟨m, hm⟩
      simp [parseRecords] at hm
    · rintro ⟨e, he, _⟩
      cases he
  | cons e t ih =>
    intro acc
    by_cases hc : containsCh e '=' = true
    · constructor
      · intro hx
        obtain ⟨e2, he2, hf⟩ := (ih _).mp (by simpa [parseRecords, hc] using hx)
        exact ⟨e2, List.mem_cons_of_mem _ he2, hf⟩
      · rintro ⟨e2, he2, hf⟩
        rcases List.mem_cons.mp he2 with rfl | h2
        · rw [hc] at hf
          cases hf
        · have hx := (ih (dinsert acc (pyStrip (splitOnce '=' e).1)
            (pyStrip (splitOnce '=' e).2))).mpr ⟨e2, h2, hf⟩
          simpa [parseRecords, hc] using hx
    · have hcf : containsCh e '=' = false := Bool.eq_false_iff.mpr hc
      constructor
      · intro _
        exact ⟨e, List.mem_cons_self e t, hcf⟩
      · intro _
        exact ⟨"Invalid record format: " ++ e, by simp [parseRecords, hcf]⟩

/-- Claim C7: the SOA serial used in every rendered zone file is the 10-digit
integer obtained by formatting the current UTC time as YYYYMMDDHH: for every
calendar UTC time, _get_serial returns the positional value of the digit
string %Y%m%d%H, and that value has exactly ten decimal digits. -/
theorem claim_c7 (y mo d h : Nat) (hy1 : 1000 ≤ y) (hy2 : y < 10000)
    (hmo : mo < 100) (hd : d < 100) (hh : h < 100) :
    getSerial y mo d h = y * 1000000 + mo * 10000 + d * 100 + h ∧
    1000000000 ≤ getSerial y mo d h ∧
    getSerial y mo d h < 10000000000 := by
  have he := intOfDigits_serialDigits y mo d h hy2 hmo hd hh
  refine ⟨by rw [he]; ring, ?_, ?_⟩
  · rw [he]
    omega
  · rw [he]
    omega

/-- Witness for claim C7 at the concrete UTC time 2024-10-12 09:00. -/
theorem claim_c7_witness :
    getSerial 2024 10 12 9 = 2024 * 1000000 + 10 * 10000 + 12 * 100 + 9 ∧
    1000000000 ≤ getSerial 2024 10 12 9 ∧
    getSerial 2024 10 12 9 < 10000000000 :=
  claim_c7 2024 10 12 9 (by decide) (by decide) (by decide) (by decide)
    (by decide)

/-- Claim C5: pulling the image makes at most 3 attempts total; a transient
API error on an attempt before the last triggers a retry after a console
notice; an API error on the 3rd attempt raises the image error; a definitive
image-not-found response raises the image error immediately with no further
attempt; the first successful pull ends the loop. -/
theorem claim_c5 (img : String) (pull : Nat → PullOutcome) :
    (pullBindImage img pull).1 ≤ 3 ∧
    (∀ i, i < 3 → (∀ j, j < i → ∃ m, pull j = .apiError m) →
      pull i = .success → pullBindImage img pull = (i + 1, i, .ok ())) ∧
    (∀ i, i < 3 → (∀ j, j < i → ∃ m, pull j = .apiError m) →
      pull i = .notFound →
      pullBindImage img pull =
        (i + 1, i, .error ("Image " ++ img ++ " not found"))) ∧
    (∀ m0 m1 m2, pull 0 = .apiError m0 → pull 1 = .apiError m1 →
      pull 2 = .apiError m2 →
      pullBindImage img pull =
        (3, 2, .error ("Failed to pull image: " ++ m2))) := by
  refine ⟨?_, ?_, ?_, ?_⟩
  · cases h0 : pull 0 with
    | success => simp [pullBindImage, pullGo, h0]
    | notFound => simp [pullBindImage, pullGo, h0]
    | apiError m0 =>
      cases h1 : pull 1 with
      | success => simp [pullBindImage, pullGo, h0, h1]
      | notFound => simp [pullBindImage, pullGo, h0, h1]
      | apiError m1 =>
        cases h2 : pull 2 with
        | success => simp [pullBindImage, pullGo, h0, h1, h2]
        | notFound => simp [pullBindImage, pullGo, h0, h1, h2]
        | apiError m2 => simp [pullBindImage, pullGo, h0, h1, h2]
  · intro i hi hprev hs
    interval_cases i
    · simp [pullBindImage, pullGo, hs]
    · obtain ⟨m0, h0⟩ := hprev 0 (by omega)
      simp [pullBindImage, pullGo, h0, hs]
    · obtain ⟨m0, h0⟩ := hprev 0 (by omega)
      obtain ⟨m1, h1⟩ := hprev 1 (by omega)
      simp [pullBindImage, pullGo, h0, h1, hs]
  · intro i hi hprev hs
    interval_cases i
    · simp [pullBindImage, pullGo, hs]
    · obtain ⟨m0, h0⟩ := hprev 0 (by omega)
      simp [pullBindImage, pullGo, h0, hs]
    · obtain ⟨m0, h0⟩ := hprev 0 (by omega)
      obtain ⟨m1, h1⟩ := hprev 1 (by omega)
      simp [pullBindImage, pullGo, h0, h1, hs]
  · intro m0 m1 m2 h0 h1 h2
    simp [pullBindImage, pullGo, h0, h1, h2]

/-- Witness for claim C5: two transient failures followed by success give
exactly three pull calls, two retry notices and a successful result. -/
theorem claim_c5_witness :
    pullBindImage "ubuntu/bind9:latest"
      (fun n => if n < 2 then .apiError "net" else .success) =
      (3, 2, .ok ()) :=
  (claim_c5 "ubuntu/bind9:latest"
      (fun n => if n < 2 then .apiError "net" else .success)).2.1 2
    (by omega) (fun j hj => ⟨"net", by simp [hj]⟩) (by simp)

/-- Claim C3, counterexample: a non-2xx HTTP response does not trigger the
shell fallback — requests.get(...).text returns the response body whatever
the status code, so _get_public_ip returns the 500-response body even though
the shell fallback would have produced an address. -/
theorem claim_c3_counterexample :
    getPublicIp (some (500, "Internal Server Error")) (some "203.0.113.9") =
      .ok "Internal Server Error" ∧
    "Internal Server Error" ≠ "203.0.113.9" :=
  ⟨rfl, by decide⟩

/-- Claim C3 as amended: only a transport-level failure of the HTTP query
(timeout, DNS failure, connection error) triggers the shell fallback chain; a
non-2xx response is returned as-is.  The first method that succeeds is
returned, and the discovery error is raised if and only if the HTTP query
fails at transport level and the shell fallback also fails. -/
theorem claim_c3_amended (http : Option (Nat × String))
    (shell : Option String) :
    (∀ status body, http = some (status, body) →
      getPublicIp http shell = .ok body) ∧
    (∀ out, http = none → shell = some out →
      getPublicIp http shell = .ok out) ∧
    (getPublicIp http shell = .error "Failed to determine public IP address" ↔
      http = none ∧ shell = none) := by
  refine ⟨?_, ?_, ?_⟩
  · intro status body hb
    rw [hb]
    rfl
  · intro out h1 h2
    rw [h1, h2]
    rfl
  · cases http with
    | some r => simp [getPublicIp]
    | none =>
      cases shell with
      | some out => simp [getPublicIp]
      | none => simp [getPublicIp]

/-- Witness for the amended claim C3 at a concrete successful response. -/
theorem claim_c3_amended_witness :
    getPublicIp (some (200, "198.51.100.7")) none = .ok "198.51.100.7" :=
  (claim_c3_amended (some (200, "198.51.100.7")) none).1 200 "198.51.100.7"
    rfl

/-- Claim C9: the process exits 0 on success, 1 on configuration/docker
errors or unexpected exceptions, 2 on malformed hostname=ip input syntax
(an argument with no equals sign), 130 on user interrupt, and each error
kind is reported with its own distinguishing message prefix; all error exit
statuses are non-zero. -/
theorem claim_c9 (entries : List String) (b : StartBehavior) :
    ((∃ m, parseRecords entries [] = .error m) ↔
      ∃ e ∈ entries, containsCh e '=' = false) ∧
    (∀ m, parseRecords entries [] = .error m →
      mainRun entries b = (2, "❌ Invalid input: ")) ∧
    (∀ recs, parseRecords entries [] = .ok recs →
      (b = .interrupted →
        mainRun entries b = (130, "Operation cancelled by user")) ∧
      (b = .unexpectedExc →
        mainRun entries b = (1, "❌ Unexpected error: ")) ∧
      (∀ env ip, b = .runs env → (startRun env recs).2.2 = .ok ip →
        mainRun entries b = (0, "✅ DNS Server Successfully Configured!")) ∧
      (∀ env e, b = .runs env → (startRun env recs).2.2 = .error e →
        mainRun entries b = (1, "❌ Error: "))) ∧
    ((2 : Nat) ≠ 0 ∧ (1 : Nat) ≠ 0 ∧ (130 : Nat) ≠ 0 ∧
      "❌ Invalid input: " ≠ "❌ Error: " ∧
      "❌ Invalid input: " ≠ "❌ Unexpected error: " ∧
      "❌ Error: " ≠ "❌ Unexpected error: " ∧
      "Operation cancelled by user" ≠ "❌ Error: ") := by
  refine ⟨parseRecords_error_iff entries [], ?_, ?_, ?_⟩
  · intro m hm
    simp [mainRun, hm]
  · intro recs hr
    refine ⟨?_, ?_, ?_, ?_⟩
    · intro hb
      subst hb
      simp [mainRun, hr]
    · intro hb
      subst hb
      simp [mainRun, hr]
    · intro env ip hb hok
      subst hb
      simp [mainRun, hr, hok]
    · intro env e hb herr
      subst hb
      simp [mainRun, hr, herr]
  · refine ⟨by decide, by decide, by decide, by decide, by decide, by decide,
      by decide⟩

/-- Witness for claim C9: a user interrupt on well-formed input exits 130. -/
theorem claim_c9_witness :
    mainRun ["a.example.com=1.2.3.4"] .interrupted =
      (130, "Operation cancelled by user") :=
  ((claim_c9 ["a.example.com=1.2.3.4"] .interrupted).2.2.1
    [("a.example.com", "1.2.3.4")] rfl).1 rfl

theorem runWrites_head (env : FsEnv) (n c : String)
    (rest : List (String × String)) :
    ∃ t, (runWrites env ((n, c) :: rest)).1 = FsOp.write n :: t := by
  cases hw : env.writeRes n with
  | ok => exact ⟨(runWrites env rest).1, by simp [runWrites, hw]⟩
  | permDenied m => exact ⟨[], by simp [runWrites, hw]⟩
  | ioError m => exact ⟨[], by simp [runWrites, hw]⟩

theorem generateZoneFiles_fail_at (env : FsEnv)
    (m1 m2 : List (String × List (String × String))) (d : String)
    (g : List (String × String)) (serial : Nat) (publicIp : String)
    (hmk : env.mkdirRes = .ok) (hnc : env.writeRes "named.conf" = .ok)
    (hm1 : ∀ q ∈ m1, env.writeRes ("db." ++ q.1) = .ok) (f : FsFailure)
    (hfail : env.writeRes ("db." ++ d) =
      match f with
      | .perm m => .permDenied m
      | .io m => .ioError m) :
    generateZoneFiles env (m1 ++ (d, g) :: m2) serial publicIp =
      (FsOp.mkdirP :: FsOp.write "named.conf" ::
        (m1.map (fun q => FsOp.write ("db." ++ q.1)) ++
          [FsOp.write ("db." ++ d)]),
       ("named.conf", genNamedConf (dkeys (m1 ++ (d, g) :: m2))) ::
         m1.map (fun q => ("db." ++ q.1, genZoneFile q.1 q.2 serial publicIp)),
       .error (fsErrMsg f)) := by
  have hz : zoneFilesOf (m1 ++ (d, g) :: m2) serial publicIp =
      ("named.conf", genNamedConf (dkeys (m1 ++ (d, g) :: m2))) ::
      (m1.map (fun q => ("db." ++ q.1, genZoneFile q.1 q.2 serial publicIp)) ++
        ("db." ++ d, genZoneFile d g serial publicIp) ::
        m2.map (fun q => ("db." ++ q.1, genZoneFile q.1 q.2 serial publicIp))) := by
    simp [zoneFilesOf]
  have hhead : runWrites env
      (("db." ++ d, genZoneFile d g serial publicIp) ::
        m2.map (fun q => ("db." ++ q.1, genZoneFile q.1 q.2 serial publicIp))) =
      ([FsOp.write ("db." ++ d)], [], some f) := by
    cases f with
    | perm m => simp [runWrites, hfail]
    | io m => simp [runWrites, hfail]
  have hall : ∀ q ∈ m1.map
      (fun q => ("db." ++ q.1, genZoneFile q.1 q.2 serial publicIp)),
      env.writeRes q.1 = .ok := by
    intro q hq
    rw [List.mem_map] at hq
    obtain ⟨q0, hq0, he⟩ := hq
    rw [← he]
    exact hm1 q0 hq0
  have hsplit := runWrites_ok_prefix_split env
    (m1.map (fun q => ("db." ++ q.1, genZoneFile q.1 q.2 serial publicIp)))
    (("db." ++ d, genZoneFile d g serial publicIp) ::
      m2.map (fun q => ("db." ++ q.1, genZoneFile q.1 q.2 serial publicIp)))
    hall
  rw [hhead] at hsplit
  have hr : runWrites env (zoneFilesOf (m1 ++ (d, g) :: m2) serial publicIp) =
      (FsOp.write "named.conf" ::
        (m1.map (fun q => FsOp.write ("db." ++ q.1)) ++
          [FsOp.write ("db." ++ d)]),
       ("named.conf", genNamedConf (dkeys (m1 ++ (d, g) :: m2))) ::
         m1.map (fun q => ("db." ++ q.1, genZoneFile q.1 q.2 serial publicIp)),
       some f) := by
    rw [hz]
    simp only [runWrites, hnc, hsplit]
    simp [List.map_map, Function.comp]
  unfold generateZoneFiles
  rw [hmk, hr]

/-- Claim C8: if a container with the reserved name dns-server pre-exists
(whether running or stopped) orchestration forcibly removes it before
launching; absence of such a container is not an error; after orchestration
succeeds exactly one container with that name exists — the newly launched
one. -/
theorem claim_c8 (st : List DContainer) (freshId : Nat)
    (hnames : (st.map (fun c => c.name)).Nodup) :
    ((∀ c ∈ st, c.name ≠ "dns-server") →
      startContainer st true freshId =
        .ok (st ++ [⟨"dns-server", true, freshId⟩])) ∧
    (∀ final, startContainer st true freshId = .ok final →
      final.countP (fun c => c.name == "dns-server") = 1 ∧
      final.filter (fun c => c.name == "dns-server") =
        [⟨"dns-server", true, freshId⟩] ∧
      (∀ c ∈ st, c.name = "dns-server" → c.cid ≠ freshId → c ∉ final)) := by
  constructor
  · intro habs
    have hf : st.find? (fun c => c.name == "dns-server") = none := by
      rw [List.find?_eq_none]
      intro c hc
      simp [habs c hc]
    simp [startContainer, hf]
  · intro final hok
    have he : final =
        (match st.find? (fun c => c.name == "dns-server") with
          | some old => st.filter (fun c => c.cid != old.cid)
          | none => st) ++ [⟨"dns-server", true, freshId⟩] := by
      have hs : startContainer st true freshId =
          .ok ((match st.find? (fun c => c.name == "dns-server") with
            | some old => st.filter (fun c => c.cid != old.cid)
            | none => st) ++ [⟨"dns-server", true, freshId⟩]) := rfl
      rw [hs] at hok
      exact (Except.ok.inj hok).symm
    subst he
    cases hf : st.find? (fun c => c.name == "dns-server") with
    | none =>
      have hnone : ∀ c ∈ st, ¬ (c.name == "dns-server") = true :=
        List.find?_eq_none.mp hf
      refine ⟨?_, ?_, ?_⟩
      · rw [List.countP_append, List.countP_eq_zero.mpr hnone]
        rfl
      · rw [List.filter_append, List.filter_eq_nil_iff.mpr hnone]
        rfl
      · intro c hc hcn _ hmem
        exact absurd (by simp [hcn]) (hnone c hc)
    | some old =>
      have hold_mem := List.mem_of_find?_eq_some hf
      have hp := List.find?_some hf
      have hold_name : old.name = "dns-server" := beq_iff_eq.mp hp
      have hkey : ∀ c ∈ st.filter (fun c => c.cid != old.cid),
          ¬ (c.name == "dns-server") = true := by
        intro c hc hbe
        have hcs := List.mem_of_mem_filter hc
        have hcf := List.of_mem_filter hc
        have hcn : c.name = old.name := by
          rw [beq_iff_eq.mp hbe, hold_name]
        have hco : c = old := List.inj_on_of_nodup_map hnames hcs hold_mem hcn
        rw [hco] at hcf
        simp at hcf
      refine ⟨?_, ?_, ?_⟩
      · rw [List.countP_append, List.countP_eq_zero.mpr hkey]
        rfl
      · rw [List.filter_append, List.filter_eq_nil_iff.mpr hkey]
        rfl
      · intro c hc hcn hcid hmem
        rcases List.mem_append.mp hmem with h1 | h2
        · exact hkey c h1 (by simp [hcn])
        · rw [List.mem_singleton] at h2
          rw [h2] at hcid
          exact hcid rfl

/-- Witness for claim C8: replacing a stopped pre-existing dns-server
container leaves exactly one container with that name. -/
theorem claim_c8_witness :
    ([⟨"web", true, 4⟩, ⟨"dns-server", true, 9⟩] :
        List DContainer).countP (fun c => c.name == "dns-server") = 1 :=
  ((claim_c8 [⟨"dns-server", false, 3⟩, ⟨"web", true, 4⟩] 9 (by decide)).2
    [⟨"web", true, 4⟩, ⟨"dns-server", true, 9⟩] rfl).1

/-- Claim C10: writing the configuration first creates the base directory,
then writes named.conf, then each apex zone file in apex insertion order;
the write is not atomic: when a zone file write fails, named.conf and the
zone files already written remain on disk while the error is re-raised as a
configuration error distinguishing permission-denied from other filesystem
failures. -/
theorem claim_c10 (env : FsEnv)
    (model : List (String × List (String × String))) (serial : Nat)
    (publicIp : String) :
    (generateZoneFiles env model serial publicIp).1 <+:
      FsOp.mkdirP ::
        (zoneFilesOf model serial publicIp).map (fun f => FsOp.write f.1) ∧
    (env.mkdirRes = .ok →
      [FsOp.mkdirP, FsOp.write "named.conf"] <+:
        (generateZoneFiles env model serial publicIp).1) ∧
    (∀ m1 dg m2 msg, model = m1 ++ dg :: m2 → env.mkdirRes = .ok →
      env.writeRes "named.conf" = .ok →
      (∀ q ∈ m1, env.writeRes ("db." ++ q.1) = .ok) →
      ((env.writeRes ("db." ++ dg.1) = .permDenied msg →
        (generateZoneFiles env model serial publicIp).2.1 =
          ("named.conf", genNamedConf (dkeys model)) ::
            m1.map (fun q =>
              ("db." ++ q.1, genZoneFile q.1 q.2 serial publicIp)) ∧
        (generateZoneFiles env model serial publicIp).2.2 =
          .error ("Permission denied: " ++ msg)) ∧
       (env.writeRes ("db." ++ dg.1) = .ioError msg →
        (generateZoneFiles env model serial publicIp).2.1 =
          ("named.conf", genNamedConf (dkeys model)) ::
            m1.map (fun q =>
              ("db." ++ q.1, genZoneFile q.1 q.2 serial publicIp)) ∧
        (generateZoneFiles env model serial publicIp).2.2 =
          .error ("File system error: " ++ msg)))) := by
  refine ⟨?_, ?_, ?_⟩
  · unfold generateZoneFiles
    cases hm : env.mkdirRes with
    | permDenied m => exact ⟨_, rfl⟩
    | ioError m => exact ⟨_, rfl⟩
    | ok =>
      show (FsOp.mkdirP ::
        (runWrites env (zoneFilesOf model serial publicIp)).1) <+: _
      exact List.cons_prefix_cons.mpr ⟨rfl, runWrites_trace_prefix env _⟩
  · intro hmk
    obtain ⟨t, ht⟩ := runWrites_head env "named.conf"
      (genNamedConf (dkeys model))
      (model.map (fun p => ("db." ++ p.1, genZoneFile p.1 p.2 serial publicIp)))
    unfold generateZoneFiles
    rw [hmk]
    show [FsOp.mkdirP, FsOp.write "named.conf"] <+:
      FsOp.mkdirP :: (runWrites env (("named.conf", genNamedConf (dkeys model)) ::
        model.map
          (fun p => ("db." ++ p.1, genZoneFile p.1 p.2 serial publicIp)))).1
    rw [ht]
    exact ⟨t, rfl⟩
  · intro m1 dg m2 msg hmodel hmk hnc hm1
    obtain ⟨d, g⟩ := dg
    subst hmodel
    constructor
    · intro hperm
      have hgen := generateZoneFiles_fail_at env m1 m2 d g serial publicIp
        hmk hnc hm1 (.perm msg) hperm
      rw [hgen]
      exact ⟨rfl, rfl⟩
    · intro hio
      have hgen := generateZoneFiles_fail_at env m1 m2 d g serial publicIp
        hmk hnc hm1 (.io msg) hio
      rw [hgen]
      exact ⟨rfl, rfl⟩

/-- Witness for claim C10 at a concrete model whose only zone file write is
denied: named.conf stays on disk and the error is the permission variant. -/
theorem claim_c10_witness :
    (generateZoneFiles wEnv [("example.com", [("a.example.com", "1.2.3.4")])]
        2024101209 "203.0.113.9").2.2 =
      .error ("Permission denied: " ++ "EACCES") :=
  (((claim_c10 wEnv [("example.com", [("a.example.com", "1.2.3.4")])]
      2024101209 "203.0.113.9").2.2 []
    ("example.com", [("a.example.com", "1.2.3.4")]) [] "EACCES" rfl rfl rfl
    (fun q hq => absurd hq (List.not_mem_nil q))).1 rfl).2

/-- Claim C6: for every ZoneModel, rendering emits, per apex domain, a zone
file containing the TTL directive, the SOA block with the serial and the
fixed constants 3600/900/604800/86400, the NS record, the glue record
carrying the discovered public IP, and one A-record line per hostname padded
to a 30-character column in insertion order; and one master configuration
containing the listen/allow/recursion options and exactly one zone stanza
per apex domain referencing /etc/bind/db.<apex>. -/
theorem claim_c6 (domain pubIp : String) (serial : Nat)
    (recs : List (String × String)) (doms : List String) :
    containsSub (genZoneFile domain recs serial pubIp) "$TTL 86400" ∧
    containsSub (genZoneFile domain recs serial pubIp)
      ("@ IN SOA ns." ++ domain ++ ". admin." ++ domain ++ ". (\n    " ++
        Nat.repr serial ++ "\n    3600\n    900\n    604800\n    86400 )") ∧
    containsSub (genZoneFile domain recs serial pubIp)
      ("@       IN NS  ns." ++ domain ++ ".") ∧
    containsSub (genZoneFile domain recs serial pubIp)
      ("ns      IN A   " ++ pubIp) ∧
    (∀ p ∈ recs,
      containsSub (genZoneFile domain recs serial pubIp) (recordLine p)) ∧
    (∀ hst ipr, recordLine (hst, ipr) = pyLjust hst 30 ++ " IN A " ++ ipr ∧
      30 ≤ (pyLjust hst 30).length) ∧
    containsSub (genNamedConf doms) "listen-on port 53 \x7b any; \x7d;" ∧
    containsSub (genNamedConf doms) "allow-query \x7b any; \x7d;" ∧
    containsSub (genNamedConf doms) "recursion no;" ∧
    ((doms.map zoneStanza).length = doms.length ∧
      ∀ d ∈ doms, containsSub (genNamedConf doms) (zoneStanza d) ∧
        containsSub (zoneStanza d)
          ("file \"/etc/bind/db." ++ d ++ "\";")) := by
  refine ⟨?_, ?_, ?_, ?_, ?_, ?_, ?_, ?_, ?_, List.length_map doms zoneStanza,
    ?_⟩
  · have hB : ("\n$TTL 86400\n@ IN SOA ns." : String).data =
        ("\n" : String).data ++ ("$TTL 86400" : String).data ++
          ("\n@ IN SOA ns." : String).data := by decide
    refine ⟨"; Zone file for " ++ domain ++ "\n",
      "\n@ IN SOA ns." ++ domain ++ ". admin." ++ domain ++ ". (\n    " ++
        Nat.repr serial ++
        "\n    3600\n    900\n    604800\n    86400 )\n\n@       IN NS  ns." ++
        domain ++ ".\nns      IN A   " ++ pubIp ++ "\n\n" ++
        joinSep "\n" (recs.map recordLine) ++ "\n", ?_⟩
    apply String.ext
    simp [genZoneFile, String.data_append, hB]
  · have hB : ("\n$TTL 86400\n@ IN SOA ns." : String).data =
        ("\n$TTL 86400\n" : String).data ++
          ("@ IN SOA ns." : String).data := by decide
    have hE : ("\n    3600\n    900\n    604800\n    86400 )\n\n@       IN NS  ns." : String).data =
        ("\n    3600\n    900\n    604800\n    86400 )" : String).data ++
          ("\n\n@       IN NS  ns." : String).data := by decide
    refine ⟨"; Zone file for " ++ domain ++ "\n$TTL 86400\n",
      "\n\n@       IN NS  ns." ++ domain ++ ".\nns      IN A   " ++ pubIp ++
        "\n\n" ++ joinSep "\n" (recs.map recordLine) ++ "\n", ?_⟩
    apply String.ext
    simp [genZoneFile, String.data_append, hB, hE]
  · have hE : ("\n    3600\n    900\n    604800\n    86400 )\n\n@       IN NS  ns." : String).data =
        ("\n    3600\n    900\n    604800\n    86400 )\n\n" : String).data ++
          ("@       IN NS  ns." : String).data := by decide
    have hF : (".\nns      IN A   " : String).data =
        ("." : String).data ++ ("\nns      IN A   " : String).data := by
      decide
    refine ⟨"; Zone file for " ++ domain ++ "\n$TTL 86400\n@ IN SOA ns." ++
      domain ++ ". admin." ++ domain ++ ". (\n    " ++ Nat.repr serial ++
      "\n    3600\n    900\n    604800\n    86400 )\n\n",
      "\nns      IN A   " ++ pubIp ++ "\n\n" ++
        joinSep "\n" (recs.map recordLine) ++ "\n", ?_⟩
    apply String.ext
    simp [genZoneFile, String.data_append, hE, hF]
  · have hF : (".\nns      IN A   " : String).data =
        (".\n" : String).data ++ ("ns      IN A   " : String).data := by
      decide
    refine ⟨"; Zone file for " ++ domain ++ "\n$TTL 86400\n@ IN SOA ns." ++
      domain ++ ". admin." ++ domain ++ ". (\n    " ++ Nat.repr serial ++
      "\n    3600\n    900\n    604800\n    86400 )\n\n@       IN NS  ns." ++
      domain ++ ".\n",
      "\n\n" ++ joinSep "\n" (recs.map recordLine) ++ "\n", ?_⟩
    apply String.ext
    simp [genZoneFile, String.data_append, hF]
  · intro p hp
    unfold genZoneFile
    exact containsSub_appR "\n"
      (containsSub_appL _ (containsSub_joinSep "\n" recordLine recs p hp))
  · intro hst ipr
    refine ⟨rfl, ?_⟩
    unfold pyLjust
    have hl : (hst ++ String.mk (List.replicate (30 - hst.length) ' ')).length =
        hst.length + (30 - hst.length) := by simp
    rw [hl]
    omega
  · have hH : ("\noptions \x7b\n    directory \"/etc/bind\";\n    listen-on port 53 \x7b any; \x7d;\n    allow-query \x7b any; \x7d;\n    recursion no;\n\x7d;\n\n" : String).data =
        ("\noptions \x7b\n    directory \"/etc/bind\";\n    " : String).data ++
          ("listen-on port 53 \x7b any; \x7d;" : String).data ++
          ("\n    allow-query \x7b any; \x7d;\n    recursion no;\n\x7d;\n\n" : String).data := by
      decide
    refine ⟨"\noptions \x7b\n    directory \"/etc/bind\";\n    ",
      "\n    allow-query \x7b any; \x7d;\n    recursion no;\n\x7d;\n\n" ++
        genZoneEntries doms ++ "\n            ", ?_⟩
    apply String.ext
    simp [genNamedConf, String.data_append, hH]
  · have hH : ("\noptions \x7b\n    directory \"/etc/bind\";\n    listen-on port 53 \x7b any; \x7d;\n    allow-query \x7b any; \x7d;\n    recursion no;\n\x7d;\n\n" : String).data =
        ("\noptions \x7b\n    directory \"/etc/bind\";\n    listen-on port 53 \x7b any; \x7d;\n    " : String).data ++
          ("allow-query \x7b any; \x7d;" : String).data ++
          ("\n    recursion no;\n\x7d;\n\n" : String).data := by decide
    refine ⟨"\noptions \x7b\n    directory \"/etc/bind\";\n    listen-on port 53 \x7b any; \x7d;\n    ",
      "\n    recursion no;\n\x7d;\n\n" ++ genZoneEntries doms ++
        "\n            ", ?_⟩
    apply String.ext
    simp [genNamedConf, String.data_append, hH]
  · have hH : ("\noptions \x7b\n    directory \"/etc/bind\";\n    listen-on port 53 \x7b any; \x7d;\n    allow-query \x7b any; \x7d;\n    recursion no;\n\x7d;\n\n" : String).data =
        ("\noptions \x7b\n    directory \"/etc/bind\";\n    listen-on port 53 \x7b any; \x7d;\n    allow-query \x7b any; \x7d;\n    " : String).data ++
          ("recursion no;" : String).data ++
          ("\n\x7d;\n\n" : String).data := by decide
    refine ⟨"\noptions \x7b\n    directory \"/etc/bind\";\n    listen-on port 53 \x7b any; \x7d;\n    allow-query \x7b any; \x7d;\n    ",
      "\n\x7d;\n\n" ++ genZoneEntries doms ++ "\n            ", ?_⟩
    apply String.ext
    simp [genNamedConf, String.data_append, hH]
  · intro d hd
    constructor
    · unfold genNamedConf genZoneEntries
      exact containsSub_appR "\n            "
        (containsSub_appL _ (containsSub_joinSep "\n" zoneStanza doms d hd))
    · have hL : ("\" \x7b type master; file \"/etc/bind/db." : String).data =
          ("\" \x7b type master; " : String).data ++
            ("file \"/etc/bind/db." : String).data := by decide
      have hT : ("\"; \x7d;" : String).data =
          ("\";" : String).data ++ (" \x7d;" : String).data := by decide
      refine ⟨"zone \"" ++ d ++ "\" \x7b type master; ", " \x7d;", ?_⟩
      apply String.ext
      simp [zoneStanza, String.data_append, hL, hT]

/-- Witness for claim C6: the record line of a concrete record occurs in its
rendered zone file. -/
theorem claim_c6_witness :
    containsSub
      (genZoneFile "example.com" [("a.example.com", "1.2.3.4")] 2024101209
        "203.0.113.9")
      (recordLine ("a.example.com", "1.2.3.4")) :=
  (claim_c6 "example.com" "203.0.113.9" 2024101209
      [("a.example.com", "1.2.3.4")] ["example.com"]).2.2.2.2.1
    ("a.example.com", "1.2.3.4") (List.mem_singleton.mpr rfl)

/-- Claim C4: building the model groups each (hostname, ip) pair of the
records dict under the apex formed from the hostname's last two labels, in
input order; hostnames sharing their last two labels land in the same apex
record mapping; when the same hostname is supplied more than once the
last-specified IP wins, and the rendered zone contains exactly one A-record
line for that hostname, carrying the last IP. -/
theorem claim_c4 (entries : List (String × String)) :
    keysND (buildRecords entries) ∧
    (∀ k, dlookup (buildRecords entries) k = lastVal entries k) ∧
    (∀ p ∈ buildRecords entries, ∃ g,
      dlookup (groupRecords (buildRecords entries)) (apexOf p.1) = some g ∧
      dlookup g p.1 = some p.2) ∧
    (∀ h1 i1 h2 i2, (h1, i1) ∈ buildRecords entries →
      (h2, i2) ∈ buildRecords entries → apexOf h1 = apexOf h2 →
      ∃ g, dlookup (groupRecords (buildRecords entries)) (apexOf h1) =
          some g ∧
        dlookup g h1 = some i1 ∧ dlookup g h2 = some i2) ∧
    (∀ serial pubIp d g hst v,
      dlookup (groupRecords (buildRecords entries)) d = some g →
      dlookup g hst = some v →
      g.countP (fun q => q.1 == hst) = 1 ∧ (hst, v) ∈ g ∧
      containsSub (genZoneFile d g serial pubIp) (recordLine (hst, v))) := by
  have hnd := keysND_buildRecords entries
  have key : ∀ p ∈ buildRecords entries, ∃ g,
      dlookup (groupRecords (buildRecords entries)) (apexOf p.1) = some g ∧
      dlookup g p.1 = some p.2 := by
    intro p hp
    have hlast : lastVal (buildRecords entries) p.1 = some p.2 :=
      lastVal_of_mem_nodup hnd hp
    have hgl := groupRecords_glookup (buildRecords entries) p.1
    rw [hlast] at hgl
    unfold glookup at hgl
    cases hg : dlookup (groupRecords (buildRecords entries)) (apexOf p.1) with
    | none =>
      rw [hg] at hgl
      cases hgl
    | some g =>
      rw [hg] at hgl
      exact ⟨g, rfl, hgl⟩
  refine ⟨hnd, fun k => buildRecords_lookup entries k, key, ?_, ?_⟩
  · intro h1 i1 h2 i2 hm1 hm2 hap
    obtain ⟨g1, hg1, hv1⟩ := key (h1, i1) hm1
    obtain ⟨g2, hg2, hv2⟩ := key (h2, i2) hm2
    rw [hap] at hg1
    rw [hg1] at hg2
    have hgg : g1 = g2 := Option.some.inj hg2
    subst hgg
    rw [← hap] at hg1
    exact ⟨g1, hg1, hv1, hv2⟩
  · intro serial pubIp d g hst v hg hv
    have hmemg : (hst, v) ∈ g := mem_of_dlookup_eq_some hv
    have hgmem : (d, g) ∈ groupRecords (buildRecords entries) :=
      mem_of_dlookup_eq_some hg
    have hndg : keysND g :=
      groupRecords_inner_nodup (buildRecords entries) (d, g) hgmem
    refine ⟨countP_key_eq_one hndg hmemg, hmemg, ?_⟩
    unfold genZoneFile
    exact containsSub_appR "\n"
      (containsSub_appL _
        (containsSub_joinSep "\n" recordLine g (hst, v) hmemg))

/-- Witness for claim C4: for duplicated input a.example.com the grouped
model holds exactly one entry for that hostname with the last IP. -/
theorem claim_c4_witness :
    ([("a.example.com", "2.2.2.2")] : List (String × String)).countP
      (fun q => q.1 == "a.example.com") = 1 :=
  ((claim_c4 [("a.example.com", "1.1.1.1"),
      ("a.example.com", "2.2.2.2")]).2.2.2.2 2024101209 "203.0.113.9"
    "example.com" [("a.example.com", "2.2.2.2")] "a.example.com" "2.2.2.2"
    rfl rfl).1

/-- Claim C1, counterexample: with an input containing a single-label
hostname and a malformed IP, the run succeeds — no RecordFormatError exists
in the code — and the configuration and zone files ARE written to disk
(named.conf, db.localhost and db.example.com). -/
theorem claim_c1_counterexample :
    (startRun cEnv [("localhost", "1.2.3.4"),
      ("a.example.com", "999.1.1.1")]).2.2 = .ok "203.0.113.9" ∧
    ((startRun cEnv [("localhost", "1.2.3.4"),
      ("a.example.com", "999.1.1.1")]).2.1).map (fun p => p.1) =
      ["named.conf", "db.localhost", "db.example.com"] :=
  ⟨rfl, rfl⟩

/-- Claim C1 as amended: the code performs no hostname-label or IP-syntax
validation at all.  For every hostname and IP string whatsoever, in an
environment where the external calls succeed, the run succeeds, named.conf
and db.<apex> are written (the apex of a single-label hostname is that label
itself), and the zone file contains the record line with the IP verbatim;
only an argument with no equals sign is rejected (as ValueError in main). -/
theorem claim_c1_amended (host ip : String) (env : Env) (status : Nat)
    (pubIp : String) (hhttp : env.http = some (status, pubIp))
    (hps : env.psOk = true) (hpull : env.pull 0 = .success)
    (hmk : env.fs.mkdirRes = .ok) (hwr : ∀ f, env.fs.writeRes f = .ok)
    (hrun : env.runOk = true) :
    (startRun env [(host, ip)]).2.2 = .ok pubIp ∧
    (startRun env [(host, ip)]).2.1 =
      [("named.conf", genNamedConf [apexOf host]),
       ("db." ++ apexOf host,
         genZoneFile (apexOf host) [(host, ip)] env.serial pubIp)] ∧
    containsSub (genZoneFile (apexOf host) [(host, ip)] env.serial pubIp)
      (recordLine (host, ip)) := by
  have hgp : getPublicIp env.http env.shell = .ok pubIp := by
    rw [hhttp]
    rfl
  have hsd : setupDocker env.psOk env.installOk = .ok () := by
    rw [hps]
    rfl
  have hpb : (pullBindImage dockerImage env.pull).2.2 = .ok () := by
    simp [pullBindImage, pullGo, hpull]
  have hmodel : groupRecords [(host, ip)] = [(apexOf host, [(host, ip)])] :=
    rfl
  have hgz : generateZoneFiles env.fs [(apexOf host, [(host, ip)])]
      env.serial pubIp =
      (FsOp.mkdirP ::
        (zoneFilesOf [(apexOf host, [(host, ip)])] env.serial pubIp).map
          (fun f => FsOp.write f.1),
       zoneFilesOf [(apexOf host, [(host, ip)])] env.serial pubIp,
       .ok ()) := by
    unfold generateZoneFiles
    rw [hmk, runWrites_all_ok env.fs _ (fun f _ => hwr f.1)]
  have hsc : startContainer env.containers env.runOk env.freshId =
      .ok ((match env.containers.find? (fun c => c.name == "dns-server") with
        | some old => env.containers.filter (fun c => c.cid != old.cid)
        | none => env.containers) ++
          [⟨"dns-server", true, env.freshId⟩]) := by
    unfold startContainer
    rw [hrun]
    rfl
  have hs : startRun env [(host, ip)] =
      (fullTrace, zoneFilesOf [(apexOf host, [(host, ip)])] env.serial pubIp,
        .ok pubIp) := by
    unfold startRun
    simp only [hgp, hsd, hpb, hmodel, hgz, hsc]
  refine ⟨?_, ?_, ?_⟩
  · rw [hs]
  · rw [hs]
    rfl
  · unfold genZoneFile
    exact containsSub_appR "\n"
      (containsSub_appL _
        (containsSub_joinSep "\n" recordLine [(host, ip)] (host, ip)
          (List.mem_singleton.mpr rfl)))

/-- Witness for the amended claim C1: the unvalidated single-label record
localhost=999.1.1.1 provisions successfully. -/
theorem claim_c1_amended_witness :
    (startRun cEnv [("localhost", "999.1.1.1")]).2.2 = .ok "203.0.113.9" :=
  (claim_c1_amended "localhost" "999.1.1.1" cEnv 200 "203.0.113.9" rfl rfl
    rfl rfl (fun _ => rfl) rfl).1

/-- Claim C2, counterexample: in a successful concrete run the stage trace
is resolveIP, dockerCheck, imagePull, buildModel, writeFiles,
launchContainer — the runtime check and the image pull begin strictly
before the zone files are written. -/
theorem claim_c2_counterexample :
    (startRun cEnv [("a.example.com", "1.2.3.4")]).1 = fullTrace ∧
    beganBefore (startRun cEnv [("a.example.com", "1.2.3.4")]).1
      Event.imagePull Event.writeFiles ∧
    beganBefore (startRun cEnv [("a.example.com", "1.2.3.4")]).1
      Event.dockerCheck Event.writeFiles :=
  ⟨rfl, ⟨3, by decide, by decide⟩, ⟨2, by decide, by decide⟩⟩

/-- Claim C2 as amended: the Controller executes resolve-IP, then the
container-runtime check, then the image pull, then model building and file
writing, then container replace/launch; the trace is always a prefix of
that order, a successful run produces the full order, every stage begins
only if all earlier stages succeeded (the first failing stage aborts all
later stages), and the replace/launch step begins only once every zone file
is on disk. -/
theorem claim_c2_amended (env : Env) (records : List (String × String)) :
    (startRun env records).1 <+: fullTrace ∧
    (∀ ip, (startRun env records).2.2 = .ok ip →
      (startRun env records).1 = fullTrace) ∧
    (Event.dockerCheck ∈ (startRun env records).1 →
      ∃ ip, getPublicIp env.http env.shell = .ok ip) ∧
    (Event.imagePull ∈ (startRun env records).1 →
      setupDocker env.psOk env.installOk = .ok ()) ∧
    (Event.buildModel ∈ (startRun env records).1 →
      (pullBindImage dockerImage env.pull).2.2 = .ok ()) ∧
    (Event.launchContainer ∈ (startRun env records).1 →
      ∃ ip, getPublicIp env.http env.shell = .ok ip ∧
        (generateZoneFiles env.fs (groupRecords records) env.serial ip).2.2 =
          .ok () ∧
        (startRun env records).2.1 =
          zoneFilesOf (groupRecords records) env.serial ip) := by
  cases hip : getPublicIp env.http env.shell with
  | error m =>
    have hs : startRun env records =
        ([.resolveIP], [], .error (.config m)) := by
      unfold startRun
      simp only [hip]
    rw [hs]
    refine ⟨?_, ?_, ?_, ?_, ?_, ?_⟩
    · show [Event.resolveIP] <+: fullTrace
      decide
    · intro ip h
      simp at h
    · intro hmem
      exact absurd (show Event.dockerCheck ∈ [Event.resolveIP] from hmem)
        (by decide)
    · intro hmem
      exact absurd (show Event.imagePull ∈ [Event.resolveIP] from hmem)
        (by decide)
    · intro hmem
      exact absurd (show Event.buildModel ∈ [Event.resolveIP] from hmem)
        (by decide)
    · intro hmem
      exact absurd (show Event.launchContainer ∈ [Event.resolveIP] from hmem)
        (by decide)
  | ok ip =>
    cases hsd : setupDocker env.psOk env.installOk with
    | error m =>
      have hs : startRun env records =
          ([.resolveIP, .dockerCheck], [], .error (.docker m)) := by
        unfold startRun
        simp only [hip, hsd]
      rw [hs]
      refine ⟨?_, ?_, ?_, ?_, ?_, ?_⟩
      · show [Event.resolveIP, Event.dockerCheck] <+: fullTrace
        decide
      · intro ip2 h
        simp at h
      · intro _
        exact ⟨ip, by first | exact hip | rfl⟩
      · intro hmem
        exact absurd
          (show Event.imagePull ∈ [Event.resolveIP, Event.dockerCheck]
            from hmem) (by decide)
      · intro hmem
        exact absurd
          (show Event.buildModel ∈ [Event.resolveIP, Event.dockerCheck]
            from hmem) (by decide)
      · intro hmem
        exact absurd
          (show Event.launchContainer ∈ [Event.resolveIP, Event.dockerCheck]
            from hmem) (by decide)
    | ok u =>
      cases hpb : (pullBindImage dockerImage env.pull).2.2 with
      | error m =>
        have hs : startRun env records =
            ([.resolveIP, .dockerCheck, .imagePull], [],
              .error (.docker m)) := by
          unfold startRun
          simp only [hip, hsd, hpb]
        rw [hs]
        refine ⟨?_, ?_, ?_, ?_, ?_, ?_⟩
        · show [Event.resolveIP, Event.dockerCheck, Event.imagePull] <+:
            fullTrace
          decide
        · intro ip2 h
          simp at h
        · intro _
          exact ⟨ip, by first | exact hip | rfl⟩
        · intro _
          first | exact hsd | rfl
        · intro hmem
          exact absurd
            (show Event.buildModel ∈
              [Event.resolveIP, Event.dockerCheck, Event.imagePull]
              from hmem) (by decide)
        · intro hmem
          exact absurd
            (show Event.launchContainer ∈
              [Event.resolveIP, Event.dockerCheck, Event.imagePull]
              from hmem) (by decide)
      | ok u2 =>
        cases hw : (generateZoneFiles env.fs (groupRecords records)
            env.serial ip).2.2 with
        | error m =>
          have hs : startRun env records =
              ([.resolveIP, .dockerCheck, .imagePull, .buildModel,
                .writeFiles],
               (generateZoneFiles env.fs (groupRecords records) env.serial
                 ip).2.1,
               .error (.config m)) := by
            unfold startRun
            simp only [hip, hsd, hpb, hw]
          rw [hs]
          refine ⟨?_, ?_, ?_, ?_, ?_, ?_⟩
          · show [Event.resolveIP, Event.dockerCheck, Event.imagePull,
              Event.buildModel, Event.writeFiles] <+: fullTrace
            decide
          · intro ip2 h
            simp at h
          · intro _
            exact ⟨ip, by first | exact hip | rfl⟩
          · intro _
            first | exact hsd | rfl
          · intro _
            first | exact hpb | rfl
          · intro hmem
            exact absurd
              (show Event.launchContainer ∈
                [Event.resolveIP, Event.dockerCheck, Event.imagePull,
                  Event.buildModel, Event.writeFiles]
                from hmem) (by decide)
        | ok u3 =>
          cases hsc : startContainer env.containers env.runOk env.freshId with
          | error m =>
            have hs : startRun env records =
                (fullTrace,
                 (generateZoneFiles env.fs (groupRecords records) env.serial
                   ip).2.1,
                 .error (.docker m)) := by
              unfold startRun
              simp only [hip, hsd, hpb, hw, hsc]
            rw [hs]
            refine ⟨List.prefix_refl _, ?_, ?_, ?_, ?_, ?_⟩
            · intro ip2 h
              simp at h
            · intro _
              exact ⟨ip, by first | exact hip | rfl⟩
            · intro _
              first | exact hsd | rfl
            · intro _
              first | exact hpb | rfl
            · intro _
              exact ⟨ip, by first | exact hip | rfl, hw,
                generateZoneFiles_ok_disk env.fs _ env.serial ip hw⟩
          | ok stf =>
            have hs : startRun env records =
                (fullTrace,
                 (generateZoneFiles env.fs (groupRecords records) env.serial
                   ip).2.1,
                 .ok ip) := by
              unfold startRun
              simp only [hip, hsd, hpb, hw, hsc]
            rw [hs]
            refine ⟨List.prefix_refl _, fun _ _ => rfl, ?_, ?_, ?_, ?_⟩
            · intro _
              exact ⟨ip, by first | exact hip | rfl⟩
            · intro _
              first | exact hsd | rfl
            · intro _
              first | exact hpb | rfl
            · intro _
              exact ⟨ip, by first | exact hip | rfl, hw,
                generateZoneFiles_ok_disk env.fs _ env.serial ip hw⟩

/-- Witness for the amended claim C2: a successful concrete run yields the
full stage order. -/
theorem claim_c2_amended_witness :
    (startRun cEnv [("a.example.com", "1.2.3.4")]).1 = fullTrace :=
  (claim_c2_amended cEnv [("a.example.com", "1.2.3.4")]).2.1 "203.0.113.9"
    rfl

end DNSButler
